import Mathlib

/-!
Verification of the auto_file_copy_check_tool repository.

Shallow embedding of the core modules:
  * `src/config_loader.py` : `PhaseCode`, `Config`, `load_config`
  * `src/file_scanner.py`  : `should_include_file`, `_build_phase_path`,
    `scan_documents`, `scan_review_records`, `scan_extra_files`
  * `src/file_copier.py`   : `_build_phase_path`, `copy_document`,
    `copy_review_record_outgoing`, `find_matching_file_in_internal`,
    `copy_review_record_incoming`, `copy_extra_file`
  * `src/excel_checker.py` : `_is_cell_empty`, `check_review_record`

Modelling conventions:
  * A filesystem path is a `List String` of components; every `pathlib`
    `/`-join of one argument appends one component.
  * The filesystem is a flat list of entries (path, isFile flag,
    modification time, content id).  `Path.glob` / `Path.rglob` are modelled
    by filtering that list with an fnmatch-style matcher (`*`, `?`,
    `[...]` classes with `!` negation and ranges, unterminated `[` literal),
    matching the semantics of CPython's `fnmatch.translate` used by pathlib.
    The enumeration order of `rglob` is modelled by the entry-list order.
  * Wall-clock time is an `Int` (seconds); `datetime.now().replace(hour=0,..)`
    is the parameter `todayMidnight`, `timedelta(days=d)` is `d * 86400`.
  * I/O faults (`PermissionError`, other `Exception`) raised by
    `shutil.copy2` / `Path.mkdir` are injected through an `IOOracle`;
    `try/except` blocks become matches on `Except`.
  * `openpyxl.load_workbook` is abstracted as an `Except` value carrying the
    three cells the checker reads; `configparser` as an association-list
    INI structure with exact-name section/option lookup.
-/

namespace AutoCopy

/-- Python `str.strip()` on the character list of a string. -/
def trimChars (l : List Char) : List Char :=
  ((l.dropWhile Char.isWhitespace).reverse.dropWhile Char.isWhitespace).reverse

/-- Python `str.strip()`. -/
def strTrim (s : String) : String :=
  String.mk (trimChars s.data)

/-- `c == d` check used by the prefix scan below. -/
def listIsPrefixChars : List Char → List Char → Bool
  | [], _ => true
  | _ :: _, [] => false
  | c :: cs, d :: ds => c == d && listIsPrefixChars cs ds

/-- Python's `needle in hay` substring test, on character lists. -/
def containsChars : List Char → List Char → Bool
  | [], needle => listIsPrefixChars needle []
  | h :: rest, needle => listIsPrefixChars needle (h :: rest) || containsChars rest needle

/-- Python's `pat in s` substring test on strings. -/
def strContains (s pat : String) : Bool := containsChars s.data pat.data

/-- `config_loader.PhaseCode` (StrEnum with seven fixed codes). -/
inductive PhaseCode where
  | p030
  | p040
  | p050
  | p060
  | p070
  | p080
  | p090
deriving DecidableEq, Repr

/-- `PhaseCode.value` ("030" .. "090"). -/
def PhaseCode.value : PhaseCode → String
  | .p030 => "030"
  | .p040 => "040"
  | .p050 => "050"
  | .p060 => "060"
  | .p070 => "070"
  | .p080 => "080"
  | .p090 => "090"

/-- Iteration order of `for phase in PhaseCode` (declaration order). -/
def allPhases : List PhaseCode :=
  [PhaseCode.p030, PhaseCode.p040, PhaseCode.p050, PhaseCode.p060,
   PhaseCode.p070, PhaseCode.p080, PhaseCode.p090]

/-- `file_scanner._get_phase_name`: phase-code to Japanese folder name. -/
def scanner_get_phase_name : PhaseCode → String
  | .p030 => "調査"
  | .p040 => "設計"
  | .p050 => "製造"
  | .p060 => "UD作成"
  | .p070 => "UD消化"
  | .p080 => "SD作成"
  | .p090 => "SD消化"

/-- The `phase_names` dict literal inside `file_copier._build_phase_path`. -/
def copier_phase_names : PhaseCode → String
  | .p030 => "調査"
  | .p040 => "設計"
  | .p050 => "製造"
  | .p060 => "UD作成"
  | .p070 => "UD消化"
  | .p080 => "SD作成"
  | .p090 => "SD消化"

/-- `file_scanner._build_phase_path` (logging elided; pure path maths). -/
def scanner_build_phase_path (base_path : List String)
    (project_name quarter item_name : String) (phase : PhaseCode) : List String :=
  let phase_folder := phase.value ++ "." ++ scanner_get_phase_name phase
  if (strTrim item_name).isEmpty then
    base_path ++ [project_name, quarter, phase_folder]
  else
    base_path ++ [project_name, quarter, item_name, phase_folder]

/-- `file_copier._build_phase_path`. -/
def copier_build_phase_path (base_path : List String)
    (project_name quarter item_name : String) (phase : PhaseCode) : List String :=
  let phase_folder := phase.value ++ "." ++ copier_phase_names phase
  if (strTrim item_name).isEmpty then
    base_path ++ [project_name, quarter, phase_folder]
  else
    base_path ++ [project_name, quarter, item_name, phase_folder]

/-- One item of an fnmatch character class: a single char or a range. -/
inductive ClsItem where
  | single (c : Char)
  | range (lo hi : Char)
deriving DecidableEq, Repr

/-- Tokens of an fnmatch pattern. -/
inductive GlobTok where
  | star
  | anyChar
  | lit (c : Char)
  | cls (neg : Bool) (items : List ClsItem)
deriving DecidableEq, Repr

/-- Scan for the closing `]` of a character class; returns (body, rest). -/
def findCloseAux : List Char → Option (List Char × List Char)
  | [] => none
  | c :: rest =>
    if c = ']' then some ([], rest)
    else (findCloseAux rest).map (fun p => (c :: p.1, p.2))

/-- fnmatch class scan: a leading `!` and a `]` right after it belong to the
body (`fnmatch.translate` skips them before looking for the closing `]`). -/
def splitClass : List Char → Option (List Char × List Char)
  | '!' :: ']' :: rest => (findCloseAux rest).map (fun p => ('!' :: ']' :: p.1, p.2))
  | '!' :: rest => (findCloseAux rest).map (fun p => ('!' :: p.1, p.2))
  | ']' :: rest => (findCloseAux rest).map (fun p => (']' :: p.1, p.2))
  | l => findCloseAux l

/-- Parse the class body into items (`a-b` ranges as in a regex class). -/
def parseItems : List Char → List ClsItem
  | [] => []
  | a :: '-' :: b :: rest => ClsItem.range a b :: parseItems rest
  | a :: rest => ClsItem.single a :: parseItems rest

/-- Split off the negation mark of a class body. -/
def classBody (body : List Char) : Bool × List ClsItem :=
  match body with
  | '!' :: rest => (true, parseItems rest)
  | _ => (false, parseItems body)

/-- Tokenizer for fnmatch patterns; fuel decreases on every step, and every
step consumes at least one character, so `l.length` fuel is always enough. -/
def tokenizeAux : Nat → List Char → List GlobTok
  | 0, _ => []
  | _, [] => []
  | fuel + 1, c :: rest =>
    if c = '*' then GlobTok.star :: tokenizeAux fuel rest
    else if c = '?' then GlobTok.anyChar :: tokenizeAux fuel rest
    else if c = '[' then
      match splitClass rest with
      | some (body, rest2) =>
        let nb := classBody body
        GlobTok.cls nb.1 nb.2 :: tokenizeAux fuel rest2
      | none => GlobTok.lit '[' :: tokenizeAux fuel rest
    else GlobTok.lit c :: tokenizeAux fuel rest

/-- Tokenize an fnmatch pattern. -/
def tokenize (l : List Char) : List GlobTok :=
  tokenizeAux l.length l

/-- Does a character match one class item? -/
def itemMatches (c : Char) : ClsItem → Bool
  | ClsItem.single d => c == d
  | ClsItem.range lo hi => decide (lo ≤ c) && decide (c ≤ hi)

/-- Does a character match a (possibly negated) class? -/
def classMatches (neg : Bool) (items : List ClsItem) (c : Char) : Bool :=
  (items.any (itemMatches c)) != neg

/-- fnmatch matching of a token list against a name.  Every recursive call
shrinks pattern-length + string-length, so that sum plus one is enough fuel. -/
def globMatchAux : Nat → List GlobTok → List Char → Bool
  | 0, _, _ => false
  | _ + 1, [], [] => true
  | _ + 1, [], _ :: _ => false
  | fuel + 1, GlobTok.star :: ps, s =>
    globMatchAux fuel ps s ||
      (match s with
       | [] => false
       | _ :: s2 => globMatchAux fuel (GlobTok.star :: ps) s2)
  | _ + 1, GlobTok.anyChar :: _, [] => false
  | fuel + 1, GlobTok.anyChar :: ps, _ :: s2 => globMatchAux fuel ps s2
  | _ + 1, GlobTok.lit _ :: _, [] => false
  | fuel + 1, GlobTok.lit c :: ps, d :: s2 => c == d && globMatchAux fuel ps s2
  | _ + 1, GlobTok.cls _ _ :: _, [] => false
  | fuel + 1, GlobTok.cls neg items :: ps, d :: s2 =>
    classMatches neg items d && globMatchAux fuel ps s2

/-- fnmatch pattern match, as used by `Path.glob` / `Path.rglob` on one
name component (case-sensitive, POSIX behaviour). -/
def globMatch (pat : List GlobTok) (s : List Char) : Bool :=
  globMatchAux (pat.length + s.length + 1) pat s

/-- Glob-match a pattern string against a name string. -/
def globMatchStr (pat name : String) : Bool :=
  globMatch (tokenize pat.data) name.data

/-- One filesystem object: absolute path (as components), regular-file flag,
modification time (seconds), and an abstract content id. -/
structure FSEntry where
  path : List String
  isFile : Bool
  mtime : Int
  content : Nat
deriving DecidableEq, Repr

/-- The filesystem: a finite list of entries; list order models the
OS directory enumeration order seen by `glob` / `rglob`. -/
abbrev FS := List FSEntry

/-- `PurePath.name`: last path component. -/
def lastComponent (p : List String) : String := p.getLastD ""

/-- Name of an entry. -/
def entryName (e : FSEntry) : String := lastComponent e.path

/-- `Path.exists()`. -/
def pathExists (fs : FS) (p : List String) : Bool :=
  fs.any (fun e => e.path == p)

/-- Look up the entry at a path (first one in list order). -/
def findEntry (fs : FS) (p : List String) : Option FSEntry :=
  fs.find? (fun e => e.path == p)

/-- `p` lies strictly below directory `dir` (any depth). -/
def isUnderStrict (dir p : List String) : Bool :=
  dir.isPrefixOf p && decide (dir.length < p.length)

/-- `p` is an immediate child of directory `dir`. -/
def isChildOf (dir p : List String) : Bool :=
  dir.isPrefixOf p && p.length == dir.length + 1

/-- Does the entry's name match the fnmatch pattern? -/
def globName (pat : String) (e : FSEntry) : Bool :=
  globMatch (tokenize pat.data) (entryName e).data

/-- `dir.rglob(pat)`: entries at any depth below `dir` whose name matches
`pat` (directories included; callers filter with `is_file()`). -/
def rglob (fs : FS) (dir : List String) (pat : String) : List FSEntry :=
  fs.filter (fun e => isUnderStrict dir e.path && globName pat e)

/-- `dir.glob(pat)` for a single-component pattern: immediate children. -/
def globChildren (fs : FS) (dir : List String) (pat : String) : List FSEntry :=
  fs.filter (fun e => isChildOf dir e.path && globName pat e)

/-- Paths in the filesystem are pairwise distinct. -/
def FS.nodupPaths (fs : FS) : Prop := (fs.map FSEntry.path).Nodup

/-- Every proper nonempty prefix of an entry's path is a directory entry. -/
def FS.ancestorsClosed (fs : FS) : Prop :=
  ∀ e ∈ fs, ∀ n < e.path.length, 0 < n →
    ∃ d ∈ fs, d.path = e.path.take n ∧ d.isFile = false

instance (fs : FS) : Decidable (FS.nodupPaths fs) := by
  unfold FS.nodupPaths; infer_instance

instance (fs : FS) : Decidable (FS.ancestorsClosed fs) := by
  unfold FS.ancestorsClosed; infer_instance

/-- `file_scanner.OperationMode`. -/
inductive OperationMode where
  | outgoing
  | incoming
deriving DecidableEq, Repr

/-- `config_loader.Config` (paths as component lists). -/
structure Config where
  base_path_internal : List String
  base_path_external : List String
  document_patterns : List (PhaseCode × List String)
  extra_files : List String
  project_name : Option String
  quarter : Option String
  item_name : Option String
deriving DecidableEq, Repr

/-- `config.document_patterns.get(phase, [])`. -/
def getPatterns : List (PhaseCode × List String) → PhaseCode → List String
  | [], _ => []
  | (p, l) :: rest, ph => if p = ph then l else getPatterns rest ph

/-- `file_scanner.should_include_file`: modification time on/after local
midnight minus `days_ago` days. -/
def should_include_file (todayMidnight : Int) (mtime : Int) (days_ago : Int) : Bool :=
  decide (todayMidnight - days_ago * 86400 ≤ mtime)

/-- `file_scanner.scan_documents`. -/
def scan_documents (config : Config) (project_name quarter item_name : String)
    (phase : PhaseCode) (mode : OperationMode) (days_ago : Int)
    (fs : FS) (todayMidnight : Int) : List FSEntry :=
  let base_path :=
    if mode = OperationMode.outgoing then config.base_path_internal
    else config.base_path_external
  let phase_dir := scanner_build_phase_path base_path project_name quarter item_name phase
  if pathExists fs phase_dir = false then []
  else
    let patterns := getPatterns config.document_patterns phase
    if patterns.isEmpty then []
    else
      patterns.flatMap (fun pat =>
        (globChildren fs phase_dir (pat ++ "_*.xlsx")).filter
          (fun e => e.isFile && should_include_file todayMidnight e.mtime days_ago))

/-- The (post-change) review-record fnmatch pattern in `scan_review_records`. -/
def reviewRecordPattern : String := "レビュー記録表(社外)*.xlsx"

/-- `file_scanner.scan_review_records`. -/
def scan_review_records (config : Config) (project_name quarter item_name : String)
    (phase : PhaseCode) (mode : OperationMode) (days_ago : Int)
    (fs : FS) (todayMidnight : Int) : List FSEntry :=
  let artifacts_dir :=
    if mode = OperationMode.outgoing then
      scanner_build_phase_path config.base_path_internal project_name quarter item_name phase
        ++ ["成果物", "外部レビュー"]
    else
      scanner_build_phase_path config.base_path_external project_name quarter item_name phase
        ++ ["成果物"]
  if pathExists fs artifacts_dir = false then []
  else
    (rglob fs artifacts_dir reviewRecordPattern).filter
      (fun e => e.isFile && should_include_file todayMidnight e.mtime days_ago)

/-- `file_scanner.scan_extra_files` (empty-list check comes first, then the
incoming-mode early return, exactly as in the source). -/
def scan_extra_files (config : Config) (project_name quarter item_name : String)
    (phase : PhaseCode) (mode : OperationMode) (days_ago : Int)
    (fs : FS) (todayMidnight : Int) : List FSEntry :=
  if config.extra_files.isEmpty then []
  else if mode = OperationMode.incoming then []
  else
    let search_dir :=
      scanner_build_phase_path config.base_path_internal project_name quarter item_name phase
        ++ ["成果物", "外部レビュー"]
    if pathExists fs search_dir = false then []
    else
      config.extra_files.flatMap (fun file_name =>
        (rglob fs search_dir file_name).filter
          (fun e => e.isFile && should_include_file todayMidnight e.mtime days_ago))

/-- Python exception classes distinguished by the copier's handlers. -/
inductive PyErr where
  | permissionErr
  | otherErr
deriving DecidableEq, Repr

/-- Outcome of one fault-injectable I/O primitive call. -/
inductive IOOutcome where
  | ok
  | raiseErr (e : PyErr)
deriving DecidableEq, Repr

/-- Fault injection for the primitives a copy entry point calls. -/
structure IOOracle where
  mkdirRes : IOOutcome
  copyRes : IOOutcome
deriving DecidableEq, Repr

/-- Replace content and modification time of the entry at path `p`
(the effect of `shutil.copy2` onto an existing file). -/
def overwriteAt (fs : FS) (p : List String) (mtime : Int) (content : Nat) : FS :=
  fs.map (fun e => if e.path == p then { e with mtime := mtime, content := content } else e)

/-- `shutil.copy2(src, dest)`: all-or-nothing; copies content and
modification metadata; overwrites an existing destination file; copying
onto an existing directory targets `dest/src.name`; a missing or
non-regular source raises. -/
def copy2 (outcome : IOOutcome) (fs : FS) (src dest : List String) : Except PyErr FS :=
  match outcome with
  | IOOutcome.raiseErr e => Except.error e
  | IOOutcome.ok =>
    match findEntry fs src with
    | none => Except.error PyErr.otherErr
    | some se =>
      if se.isFile = false then Except.error PyErr.otherErr
      else
        match findEntry fs dest with
        | none => Except.ok (fs ++ [⟨dest, true, se.mtime, se.content⟩])
        | some de =>
          if de.isFile then Except.ok (overwriteAt fs dest se.mtime se.content)
          else
            let p2 := dest ++ [lastComponent src]
            match findEntry fs p2 with
            | none => Except.ok (fs ++ [⟨p2, true, se.mtime, se.content⟩])
            | some d2 =>
              if d2.isFile then Except.ok (overwriteAt fs p2 se.mtime se.content)
              else Except.error PyErr.otherErr

/-- Add a directory entry at `p` when nothing exists there yet. -/
def addDirIfMissing (fs : FS) (p : List String) : FS :=
  if pathExists fs p then fs else fs ++ [⟨p, false, 0, 0⟩]

/-- All nonempty prefixes of a path, shortest first. -/
def ancestorPrefixes (p : List String) : List (List String) :=
  (List.range p.length).map (fun i => p.take (i + 1))

/-- `Path.mkdir(parents=True, exist_ok=True)`. -/
def mkdirAll (outcome : IOOutcome) (fs : FS) (p : List String) : Except PyErr FS :=
  match outcome with
  | IOOutcome.raiseErr e => Except.error e
  | IOOutcome.ok => Except.ok ((ancestorPrefixes p).foldl addDirIfMissing fs)

/-- `file_copier.copy_document`.  The `try` body is the nested matches; any
raised error falls through to the handlers, which return `False` and leave
the state reached so far. -/
def copy_document (o : IOOracle) (config : Config) (source_file : List String)
    (project_name quarter item_name : String) (phase : PhaseCode)
    (mode : OperationMode) (fs : FS) : Bool × FS :=
  let dest_base :=
    if mode = OperationMode.outgoing then config.base_path_external
    else config.base_path_internal
  let dest_phase_dir := copier_build_phase_path dest_base project_name quarter item_name phase
  match mkdirAll o.mkdirRes fs dest_phase_dir with
  | Except.error _ => (false, fs)
  | Except.ok fs1 =>
    match copy2 o.copyRes fs1 source_file (dest_phase_dir ++ [lastComponent source_file]) with
    | Except.error _ => (false, fs1)
    | Except.ok fs2 => (true, fs2)

/-- `file_copier.copy_review_record_outgoing` (destination flattened to
phase path / 成果物). -/
def copy_review_record_outgoing (o : IOOracle) (config : Config)
    (source_file : List String) (project_name quarter item_name : String)
    (phase : PhaseCode) (fs : FS) : Bool × FS :=
  let dest_dir :=
    copier_build_phase_path config.base_path_external project_name quarter item_name phase
      ++ ["成果物"]
  match mkdirAll o.mkdirRes fs dest_dir with
  | Except.error _ => (false, fs)
  | Except.ok fs1 =>
    match copy2 o.copyRes fs1 source_file (dest_dir ++ [lastComponent source_file]) with
    | Except.error _ => (false, fs1)
    | Except.ok fs2 => (true, fs2)

/-- `file_copier.copy_extra_file` (same destination rule as the outgoing
review record). -/
def copy_extra_file (o : IOOracle) (config : Config)
    (source_file : List String) (project_name quarter item_name : String)
    (phase : PhaseCode) (fs : FS) : Bool × FS :=
  let dest_dir :=
    copier_build_phase_path config.base_path_external project_name quarter item_name phase
      ++ ["成果物"]
  match mkdirAll o.mkdirRes fs dest_dir with
  | Except.error _ => (false, fs)
  | Except.ok fs1 =>
    match copy2 o.copyRes fs1 source_file (dest_dir ++ [lastComponent source_file]) with
    | Except.error _ => (false, fs1)
    | Except.ok fs2 => (true, fs2)

/-- `file_copier.find_matching_file_in_internal`: `phase_dir.rglob(file_name)`
(the name is used as an fnmatch pattern) and the first hit that is a
regular file is returned. -/
def find_matching_file_in_internal (config : Config) (file_name : String)
    (project_name quarter item_name : String) (phase : PhaseCode)
    (fs : FS) : Option FSEntry :=
  let phase_dir :=
    copier_build_phase_path config.base_path_internal project_name quarter item_name phase
  if pathExists fs phase_dir = false then none
  else ((rglob fs phase_dir file_name).filter (fun e => e.isFile)).head?

/-- The list of candidate targets the incoming search walks, in order:
regular files below the internal phase path whose names glob-match the
source file name. -/
def incomingMatches (config : Config) (source_file : List String)
    (project_name quarter item_name : String) (phase : PhaseCode)
    (fs : FS) : List FSEntry :=
  (rglob fs
    (copier_build_phase_path config.base_path_internal project_name quarter item_name phase)
    (lastComponent source_file)).filter (fun e => e.isFile)

/-- `file_copier.copy_review_record_incoming`. -/
def copy_review_record_incoming (o : IOOracle) (config : Config)
    (source_file : List String) (project_name quarter item_name : String)
    (phase : PhaseCode) (fs : FS) : Bool × FS :=
  match find_matching_file_in_internal config (lastComponent source_file)
      project_name quarter item_name phase fs with
  | none => (false, fs)
  | some dest_file =>
    match copy2 o.copyRes fs source_file dest_file.path with
    | Except.ok fs2 => (true, fs2)
    | Except.error _ => (false, fs)

/-- Value of a spreadsheet cell as the checker sees it. -/
inductive CellValue where
  | vNone
  | vStr (s : String)
  | vNum (n : Int)
deriving DecidableEq, Repr

/-- `excel_checker._is_cell_empty`. -/
def is_cell_empty : CellValue → Bool
  | CellValue.vNone => true
  | CellValue.vStr s => (strTrim s).isEmpty
  | CellValue.vNum _ => false

/-- The three cells `check_review_record` reads from the active sheet. -/
structure Worksheet where
  ae2 : CellValue
  ae7 : CellValue
  ae8 : CellValue
deriving DecidableEq, Repr

/-- Failure modes of `openpyxl.load_workbook` the checker distinguishes. -/
inductive LoadErr where
  | permissionE
  | notFoundE
  | otherE
deriving DecidableEq, Repr

/-- `excel_checker.CheckResult`. -/
structure CheckResult where
  is_ok : Bool
  errors : List String
deriving DecidableEq, Repr

/-- `excel_checker.check_review_record`, over the abstract load result and
the file's name. -/
def check_review_record (loadResult : Except LoadErr Worksheet)
    (file_name : String) : CheckResult :=
  match loadResult with
  | Except.ok ws =>
    let e1 := if is_cell_empty ws.ae2 then ["AE2 (レビュー名称) が未記入です"] else []
    let e2 := if is_cell_empty ws.ae8 then ["AE8 (内部メンバ) が未記入です"] else []
    let e3 :=
      if strContains file_name "(社外)" && is_cell_empty ws.ae7 then
        ["AE7 (外部メンバ) が未記入です"]
      else []
    let errors := e1 ++ e2 ++ e3
    ⟨errors.isEmpty, errors⟩
  | Except.error LoadErr.permissionE => ⟨false, ["ファイルアクセスエラー: " ++ file_name]⟩
  | Except.error LoadErr.notFoundE => ⟨false, ["ファイルが見つかりません: " ++ file_name]⟩
  | Except.error LoadErr.otherE => ⟨false, ["Excelファイルの読み込みエラー: " ++ file_name]⟩

/-- An INI settings file: sections of key/value option pairs. -/
structure IniFile where
  sections : List (String × List (String × String))
deriving DecidableEq, Repr

/-- The aborting conditions `load_config` can raise. -/
inductive ConfigError where
  | fileNotFound
  | noSection (s : String)
  | noOption (s o : String)
deriving DecidableEq, Repr

/-- `configparser.get(section, option)`: raises `NoSectionError` /
`NoOptionError` when the section or the option is missing. -/
def IniFile.getOpt (ini : IniFile) (sec opt : String) : Except ConfigError String :=
  match ini.sections.lookup sec with
  | none => Except.error (ConfigError.noSection sec)
  | some kvs =>
    match kvs.lookup opt with
    | none => Except.error (ConfigError.noOption sec opt)
    | some v => Except.ok v

/-- `configparser.has_section`. -/
def IniFile.hasSection (ini : IniFile) (sec : String) : Bool :=
  (ini.sections.lookup sec).isSome

/-- `configparser.has_option`. -/
def IniFile.hasOption (ini : IniFile) (sec opt : String) : Bool :=
  match ini.sections.lookup sec with
  | none => false
  | some kvs => (kvs.lookup opt).isSome

/-- Python `s.split(',')` on character lists. -/
def splitCommaChars : List Char → List (List Char)
  | [] => [[]]
  | c :: rest =>
    if c = ',' then [] :: splitCommaChars rest
    else
      match splitCommaChars rest with
      | [] => [[c]]
      | g :: gs => (c :: g) :: gs

/-- The comma-list parsing idiom of `load_config`:
`[p.strip() for p in s.split(",") if p.strip()]` guarded by `s.strip()`. -/
def parseCsvList (s : String) : List String :=
  if (strTrim s).isEmpty then []
  else
    ((splitCommaChars s.data).map (fun l => strTrim (String.mk l))).filter
      (fun t => t.isEmpty = false)

/-- The `for phase in PhaseCode` loop of `load_config` building the
document-pattern mapping; a missing `Documents` option aborts. -/
def loadPatterns (ini : IniFile) : List PhaseCode → Except ConfigError (List (PhaseCode × List String))
  | [] => Except.ok []
  | ph :: rest =>
    match ini.getOpt "Documents" ph.value with
    | Except.error e => Except.error e
    | Except.ok s =>
      match loadPatterns ini rest with
      | Except.error e => Except.error e
      | Except.ok tl => Except.ok ((ph, parseCsvList s) :: tl)

/-- The optional `Project` fields: present and non-blank after strip, else
unset. -/
def loadOptField (ini : IniFile) (opt : String) : Option String :=
  if ini.hasSection "Project" && ini.hasOption "Project" opt then
    match ini.getOpt "Project" opt with
    | Except.ok v => if (strTrim v).isEmpty then none else some (strTrim v)
    | Except.error _ => none
  else none

/-- `config_loader.load_config`: `none` stands for a missing config file
(`config_path.exists()` false). -/
def load_config : Option IniFile → Except ConfigError Config
  | none => Except.error ConfigError.fileNotFound
  | some ini =>
    match ini.getOpt "Paths" "base_path_internal" with
    | Except.error e => Except.error e
    | Except.ok bpi =>
      match ini.getOpt "Paths" "base_path_external" with
      | Except.error e => Except.error e
      | Except.ok bpe =>
        match loadPatterns ini allPhases with
        | Except.error e => Except.error e
        | Except.ok pats =>
          match ini.getOpt "ExtraFiles" "include_files" with
          | Except.error e => Except.error e
          | Except.ok efs =>
            Except.ok ⟨[bpi], [bpe], pats, parseCsvList efs,
              loadOptField ini "project_name", loadOptField ini "quarter",
              loadOptField ini "item_name"⟩

/-! Concrete scenario data used by counterexamples and witnesses. -/

/-- Oracle with no injected I/O faults. -/
def oracleOk : IOOracle := ⟨IOOutcome.ok, IOOutcome.ok⟩

/-- Oracle on which every primitive raises a permission error. -/
def oracleFail : IOOracle :=
  ⟨IOOutcome.raiseErr PyErr.permissionErr, IOOutcome.raiseErr PyErr.permissionErr⟩

/-- Minimal configuration: internal root `int`, external root `ext`. -/
def demoConfig : Config := ⟨["int"], ["ext"], [], [], none, none, none⟩

/-- Internal phase tree holding only `rA.xlsx`; external source file named
`r*.xlsx` (a legal POSIX file name containing a glob metacharacter). -/
def c1fs : FS :=
  [⟨["int"], false, 0, 0⟩, ⟨["int", "P"], false, 0, 0⟩,
   ⟨["int", "P", "Q"], false, 0, 0⟩, ⟨["int", "P", "Q", "030.調査"], false, 0, 0⟩,
   ⟨["int", "P", "Q", "030.調査", "rA.xlsx"], true, 1, 10⟩,
   ⟨["ext"], false, 0, 0⟩, ⟨["ext", "r*.xlsx"], true, 2, 20⟩]

/-- Internal phase tree holding `ab.xlsx`. -/
def c2fsA : FS :=
  [⟨["int"], false, 0, 0⟩, ⟨["int", "P"], false, 0, 0⟩,
   ⟨["int", "P", "Q"], false, 0, 0⟩, ⟨["int", "P", "Q", "030.調査"], false, 0, 0⟩,
   ⟨["int", "P", "Q", "030.調査", "ab.xlsx"], true, 0, 1⟩]

/-- Internal phase tree holding a file literally named `a[b].xlsx`. -/
def c2fsB : FS :=
  [⟨["int"], false, 0, 0⟩, ⟨["int", "P"], false, 0, 0⟩,
   ⟨["int", "P", "Q"], false, 0, 0⟩, ⟨["int", "P", "Q", "030.調査"], false, 0, 0⟩,
   ⟨["int", "P", "Q", "030.調査", "a[b].xlsx"], true, 0, 1⟩]

/-- Well-formed tree with exactly one internal file named `rec.xlsx`, nested
below 成果物, plus the external source of the same name. -/
def wfs1 : FS :=
  [⟨["int"], false, 0, 0⟩, ⟨["int", "P"], false, 0, 0⟩,
   ⟨["int", "P", "Q"], false, 0, 0⟩, ⟨["int", "P", "Q", "030.調査"], false, 0, 0⟩,
   ⟨["int", "P", "Q", "030.調査", "成果物"], false, 0, 0⟩,
   ⟨["int", "P", "Q", "030.調査", "成果物", "rec.xlsx"], true, 1, 11⟩,
   ⟨["ext"], false, 0, 0⟩, ⟨["ext", "rec.xlsx"], true, 7, 77⟩]

/-- Like `wfs1` but with a second `rec.xlsx` at a deeper level. -/
def wfs2 : FS :=
  [⟨["int"], false, 0, 0⟩, ⟨["int", "P"], false, 0, 0⟩,
   ⟨["int", "P", "Q"], false, 0, 0⟩, ⟨["int", "P", "Q", "030.調査"], false, 0, 0⟩,
   ⟨["int", "P", "Q", "030.調査", "成果物"], false, 0, 0⟩,
   ⟨["int", "P", "Q", "030.調査", "成果物", "rec.xlsx"], true, 1, 11⟩,
   ⟨["int", "P", "Q", "030.調査", "成果物", "sub"], false, 0, 0⟩,
   ⟨["int", "P", "Q", "030.調査", "成果物", "sub", "rec.xlsx"], true, 2, 22⟩,
   ⟨["ext"], false, 0, 0⟩, ⟨["ext", "rec.xlsx"], true, 9, 99⟩]

/-- Configuration whose 030-phase document pattern contains a metacharacter. -/
def c4cfg : Config := ⟨["int"], ["ext"], [(PhaseCode.p030, ["a*"])], [], none, none, none⟩

/-- Phase directory holding `ab_c.xlsx`, modified after midnight. -/
def c4fs : FS :=
  [⟨["int"], false, 0, 0⟩, ⟨["int", "P"], false, 0, 0⟩,
   ⟨["int", "P", "Q"], false, 0, 0⟩, ⟨["int", "P", "Q", "030.調査"], false, 0, 0⟩,
   ⟨["int", "P", "Q", "030.調査", "ab_c.xlsx"], true, 100, 5⟩]

/-- Configuration with the spec's example prefix 調査検討書 for phase 030. -/
def c4wcfg : Config :=
  ⟨["int"], ["ext"], [(PhaseCode.p030, ["調査検討書"])], [], none, none, none⟩

/-- Phase directory holding `調査検討書_案件A.xlsx`, modified after midnight. -/
def c4wfs : FS :=
  [⟨["int"], false, 0, 0⟩, ⟨["int", "P"], false, 0, 0⟩,
   ⟨["int", "P", "Q"], false, 0, 0⟩, ⟨["int", "P", "Q", "030.調査"], false, 0, 0⟩,
   ⟨["int", "P", "Q", "030.調査", "調査検討書_案件A.xlsx"], true, 100, 5⟩]

/-- Review record nested in a date folder below 成果物/外部レビュー. -/
def c5fs : FS :=
  [⟨["int"], false, 0, 0⟩, ⟨["int", "P"], false, 0, 0⟩,
   ⟨["int", "P", "Q"], false, 0, 0⟩, ⟨["int", "P", "Q", "030.調査"], false, 0, 0⟩,
   ⟨["int", "P", "Q", "030.調査", "成果物"], false, 0, 0⟩,
   ⟨["int", "P", "Q", "030.調査", "成果物", "外部レビュー"], false, 0, 0⟩,
   ⟨["int", "P", "Q", "030.調査", "成果物", "外部レビュー", "20250101"], false, 0, 0⟩,
   ⟨["int", "P", "Q", "030.調査", "成果物", "外部レビュー", "20250101",
      "レビュー記録表(社外)調査.xlsx"], true, 50, 1⟩]

/-- Configuration listing one extra file name. -/
def c8cfg : Config := ⟨["int"], ["ext"], [], ["memo.txt"], none, none, none⟩

/-- 成果物/外部レビュー holding the configured extra file. -/
def c8fs : FS :=
  [⟨["int"], false, 0, 0⟩, ⟨["int", "P"], false, 0, 0⟩,
   ⟨["int", "P", "Q"], false, 0, 0⟩, ⟨["int", "P", "Q", "030.調査"], false, 0, 0⟩,
   ⟨["int", "P", "Q", "030.調査", "成果物"], false, 0, 0⟩,
   ⟨["int", "P", "Q", "030.調査", "成果物", "外部レビュー"], false, 0, 0⟩,
   ⟨["int", "P", "Q", "030.調査", "成果物", "外部レビュー", "memo.txt"], true, 3, 33⟩]

/-- Sheet with title and internal-participant cells filled and the
external-participant cell blank. -/
def demoSheet : Worksheet :=
  ⟨CellValue.vStr "設計書レビュー", CellValue.vStr "", CellValue.vStr "田中"⟩

/-- INI file with every section and option the loader requires (all seven
`Documents` keys present, two of them non-empty). -/
def iniGood : IniFile :=
  ⟨[("Paths", [("base_path_internal", "/i"), ("base_path_external", "/e")]),
    ("Documents",
      [("030", "調査検討書"), ("040", "設計書, 方式書"), ("050", ""), ("060", ""),
       ("070", ""), ("080", ""), ("090", "")]),
    ("ExtraFiles", [("include_files", "")])]⟩

/-- The configuration `load_config` produces from `iniGood`. -/
def cfgGood : Config :=
  ⟨["/i"], ["/e"],
   [(PhaseCode.p030, ["調査検討書"]), (PhaseCode.p040, ["設計書", "方式書"]),
    (PhaseCode.p050, []), (PhaseCode.p060, []), (PhaseCode.p070, []),
    (PhaseCode.p080, []), (PhaseCode.p090, [])],
   [], none, none, none⟩

/-- INI file whose `Documents` section lacks the 040 key. -/
def iniNoDoc : IniFile :=
  ⟨[("Paths", [("base_path_internal", "/i"), ("base_path_external", "/e")]),
    ("Documents", [("030", "調査検討書")]),
    ("ExtraFiles", [("include_files", "")])]⟩

/-! Helper lemmas. -/

/-- Membership in an `rglob` result. -/
theorem mem_rglob_iff {fs : FS} {dir : List String} {pat : String} {e : FSEntry} :
    e ∈ rglob fs dir pat ↔
      e ∈ fs ∧ isUnderStrict dir e.path = true ∧ globName pat e = true := by
  simp [rglob, List.mem_filter, Bool.and_eq_true, and_assoc]

/-- Membership in a `globChildren` result. -/
theorem mem_globChildren_iff {fs : FS} {dir : List String} {pat : String} {e : FSEntry} :
    e ∈ globChildren fs dir pat ↔
      e ∈ fs ∧ isChildOf dir e.path = true ∧ globName pat e = true := by
  simp [globChildren, List.mem_filter, Bool.and_eq_true, and_assoc]

/-- A member's path makes `pathExists` true. -/
theorem pathExists_of_mem {fs : FS} {d : FSEntry} (hd : d ∈ fs) :
    pathExists fs d.path = true := by
  simp only [pathExists, List.any_eq_true]
  exact ⟨d, hd, by simp⟩

/-- Under distinct paths, looking up a member's path finds that member. -/
theorem findEntry_of_mem_nodup {fs : FS} {f : FSEntry}
    (hnd : FS.nodupPaths fs) (hf : f ∈ fs) : findEntry fs f.path = some f := by
  induction fs with
  | nil => cases hf
  | cons a tl ih =>
    have hnd2 : a.path ∉ tl.map FSEntry.path ∧ (tl.map FSEntry.path).Nodup := by
      simpa [FS.nodupPaths, List.nodup_cons] using hnd
    rcases List.mem_cons.mp hf with rfl | htl
    · simp [findEntry, List.find?_cons]
    · have hne : (a.path == f.path) = false := by
        rcases h : a.path == f.path with _ | _
        · rfl
        · exact absurd (by rw [beq_iff_eq] at h; rw [h]; exact List.mem_map_of_mem _ htl)
            hnd2.1
      simpa [findEntry, List.find?_cons, hne] using ih hnd2.2 htl

/-- A true `isPrefixOf` determines the prefix of the longer list. -/
theorem take_of_isPrefixOf {l p : List String} (h : l.isPrefixOf p = true) :
    p.take l.length = l := by
  have h2 : l <+: p := by simpa [List.isPrefixOf_iff_prefix] using h
  exact (List.prefix_iff_eq_take.mp h2).symm

/-- The copier's phase path always has at least one component. -/
theorem copier_build_len_pos (base : List String) (project quarter item : String)
    (ph : PhaseCode) : 0 < (copier_build_phase_path base project quarter item ph).length := by
  unfold copier_build_phase_path
  by_cases h : (strTrim item).isEmpty <;> simp [h]

/-- In an ancestor-closed tree, a directory with an entry strictly below it
exists itself. -/
theorem dir_exists_of_under {fs : FS} {dir : List String} {e : FSEntry}
    (hanc : FS.ancestorsClosed fs) (he : e ∈ fs)
    (hu : isUnderStrict dir e.path = true) (hpos : 0 < dir.length) :
    pathExists fs dir = true := by
  have hu2 : dir.isPrefixOf e.path = true ∧ dir.length < e.path.length := by
    simpa [isUnderStrict, Bool.and_eq_true] using hu
  obtain ⟨d, hd, hdp, _⟩ := hanc e he dir.length hu2.2 hpos
  have hdd : d.path = dir := by rw [hdp, take_of_isPrefixOf hu2.1]
  have := pathExists_of_mem hd
  rwa [hdd] at this

/-- The head of a list is a member. -/
theorem head_mem_of_head?_eq {α : Type} {l : List α} {a : α}
    (h : l.head? = some a) : a ∈ l := by
  cases l with
  | nil => cases h
  | cons b tl => simp_all

/-- A nonempty list has a head. -/
theorem head?_isSome_of_mem {α : Type} {l : List α} {a : α} (h : a ∈ l) :
    l.head?.isSome = true := by
  cases l with
  | nil => cases h
  | cons b tl => rfl

/-- An entry's name matches a pattern exactly when `globMatchStr` says so. -/
theorem globName_eq (pat : String) (e : FSEntry) :
    globName pat e = globMatchStr pat (entryName e) := rfl

/-- Core of the incoming copy's success path: when the phase directory
exists and the candidate list has head `f`, the copy overwrites exactly the
entry at `f.path` with the source's content and mtime. -/
theorem incoming_overwrite_of_head {o : IOOracle} {config : Config}
    {source_file : List String} {project quarter item : String} {ph : PhaseCode}
    {fs : FS} {f se : FSEntry} (hnd : FS.nodupPaths fs)
    (hpe : pathExists fs
      (copier_build_phase_path config.base_path_internal project quarter item ph) = true)
    (hf : (incomingMatches config source_file project quarter item ph fs).head? = some f)
    (ho : o.copyRes = IOOutcome.ok) (hse : findEntry fs source_file = some se)
    (hsef : se.isFile = true) :
    copy_review_record_incoming o config source_file project quarter item ph fs
      = (true, overwriteAt fs f.path se.mtime se.content) := by
  have hfm : f ∈ incomingMatches config source_file project quarter item ph fs :=
    head_mem_of_head?_eq hf
  have hprops : f ∈ rglob fs
      (copier_build_phase_path config.base_path_internal project quarter item ph)
      (lastComponent source_file) ∧ f.isFile = true := by
    simpa [incomingMatches, List.mem_filter] using hfm
  obtain ⟨hfr, hffile⟩ := hprops
  have hfr2 := mem_rglob_iff.mp hfr
  have hfe : findEntry fs f.path = some f := findEntry_of_mem_nodup hnd hfr2.1
  unfold incomingMatches at hf
  simp [copy_review_record_incoming, find_matching_file_in_internal, hpe, hf, ho,
    copy2, hse, hsef, hfe, hffile]

/-! Claim theorems. -/

/-- C3: buildPhasePath yields root/project/quarter/item/"code.name" for
non-blank item and omits the item segment for blank/whitespace-only item;
Scanner and Copier derive identical paths; the phase folder names come from
the fixed seven-entry table. -/
theorem C3_build_phase_path (base : List String) (project quarter item : String)
    (ph : PhaseCode) :
    scanner_build_phase_path base project quarter item ph
        = copier_build_phase_path base project quarter item ph ∧
    ((strTrim item).isEmpty = false →
      scanner_build_phase_path base project quarter item ph
        = base ++ [project, quarter, item, ph.value ++ "." ++ scanner_get_phase_name ph]) ∧
    ((strTrim item).isEmpty = true →
      scanner_build_phase_path base project quarter item ph
        = base ++ [project, quarter, ph.value ++ "." ++ scanner_get_phase_name ph]) ∧
    (∀ p : PhaseCode, scanner_get_phase_name p = copier_phase_names p) ∧
    PhaseCode.p030.value ++ "." ++ scanner_get_phase_name PhaseCode.p030 = "030.調査" ∧
    PhaseCode.p040.value ++ "." ++ scanner_get_phase_name PhaseCode.p040 = "040.設計" ∧
    PhaseCode.p050.value ++ "." ++ scanner_get_phase_name PhaseCode.p050 = "050.製造" ∧
    PhaseCode.p060.value ++ "." ++ scanner_get_phase_name PhaseCode.p060 = "060.UD作成" ∧
    PhaseCode.p070.value ++ "." ++ scanner_get_phase_name PhaseCode.p070 = "070.UD消化" ∧
    PhaseCode.p080.value ++ "." ++ scanner_get_phase_name PhaseCode.p080 = "080.SD作成" ∧
    PhaseCode.p090.value ++ "." ++ scanner_get_phase_name PhaseCode.p090 = "090.SD消化" := by
  refine ⟨?_, ?_, ?_, ?_, by decide, by decide, by decide, by decide, by decide,
    by decide, by decide⟩
  · cases ph <;> rfl
  · intro h
    simp [scanner_build_phase_path, h]
  · intro h
    simp [scanner_build_phase_path, h]
  · intro p
    cases p <;> rfl

/-- C3 witness: concrete instances of both branches. -/
theorem C3_build_phase_path_witness :
    scanner_build_phase_path ["R"] "P" "Q" "I" PhaseCode.p030
        = ["R", "P", "Q", "I", "030.調査"] ∧
    scanner_build_phase_path ["R"] "P" "Q" " " PhaseCode.p030
        = ["R", "P", "Q", "030.調査"] := by
  constructor
  · exact ((C3_build_phase_path ["R"] "P" "Q" "I" PhaseCode.p030).2.1 (by decide)).trans
      (by decide)
  · exact ((C3_build_phase_path ["R"] "P" "Q" " " PhaseCode.p030).2.2.1 (by decide)).trans
      (by decide)

/-- C1 counterexample: the source is named `r*.xlsx`; no regular file of
that name exists anywhere under the internal phase path (the only file
there is `rA.xlsx`), yet the incoming copy reports success and modifies the
internal tree, because the name is used as an rglob pattern. -/
theorem C1_counterexample :
    c1fs.filter (fun e =>
        isUnderStrict ["int", "P", "Q", "030.調査"] e.path && e.isFile
          && (entryName e == "r*.xlsx")) = [] ∧
    (copy_review_record_incoming oracleOk demoConfig ["ext", "r*.xlsx"]
        "P" "Q" "" PhaseCode.p030 c1fs).fst = true ∧
    (copy_review_record_incoming oracleOk demoConfig ["ext", "r*.xlsx"]
        "P" "Q" "" PhaseCode.p030 c1fs).snd ≠ c1fs := by
  decide

/-- C1 amended: for every incoming review-record copy, if no regular file
whose name matches the source file's name, interpreted as a glob pattern
(for metacharacter-free names: exactly the source name), exists anywhere
under the internal phase path, the operation returns failure and the tree
is unchanged; if such a file exists and the copy primitive does not fault,
the first one in traversal order is overwritten in place (path unchanged)
and the operation returns success. -/
theorem C1_incoming_amended (o : IOOracle) (config : Config) (source_file : List String)
    (project quarter item : String) (ph : PhaseCode) (fs : FS)
    (hnd : FS.nodupPaths fs) (hanc : FS.ancestorsClosed fs) :
    (incomingMatches config source_file project quarter item ph fs = [] →
      copy_review_record_incoming o config source_file project quarter item ph fs
        = (false, fs)) ∧
    (∀ f se,
      (incomingMatches config source_file project quarter item ph fs).head? = some f →
      o.copyRes = IOOutcome.ok → findEntry fs source_file = some se → se.isFile = true →
      copy_review_record_incoming o config source_file project quarter item ph fs
        = (true, overwriteAt fs f.path se.mtime se.content)) := by
  constructor
  · intro hms
    unfold incomingMatches at hms
    unfold copy_review_record_incoming find_matching_file_in_internal
    by_cases hpe : pathExists fs
        (copier_build_phase_path config.base_path_internal project quarter item ph) = false
    · simp [hpe]
    · simp [hpe, hms]
  · intro f se hf ho hse hsef
    have hfm : f ∈ incomingMatches config source_file project quarter item ph fs :=
      head_mem_of_head?_eq hf
    have hprops : f ∈ rglob fs
        (copier_build_phase_path config.base_path_internal project quarter item ph)
        (lastComponent source_file) ∧ f.isFile = true := by
      simpa [incomingMatches, List.mem_filter] using hfm
    have hfr2 := mem_rglob_iff.mp hprops.1
    have hpe : pathExists fs
        (copier_build_phase_path config.base_path_internal project quarter item ph) = true :=
      dir_exists_of_under hanc hfr2.1 hfr2.2.1 (copier_build_len_pos _ _ _ _ _)
    exact incoming_overwrite_of_head hnd hpe hf ho hse hsef

/-- C1 witness: one nested internal match; the copy succeeds and rewrites
that entry in place. -/
theorem C1_incoming_amended_witness :
    copy_review_record_incoming oracleOk demoConfig ["ext", "rec.xlsx"] "P" "Q" ""
        PhaseCode.p030 wfs1
      = (true, overwriteAt wfs1 ["int", "P", "Q", "030.調査", "成果物", "rec.xlsx"] 7 77) :=
  (C1_incoming_amended oracleOk demoConfig ["ext", "rec.xlsx"] "P" "Q" "" PhaseCode.p030
      wfs1 (by decide) (by decide)).2
    ⟨["int", "P", "Q", "030.調査", "成果物", "rec.xlsx"], true, 1, 11⟩
    ⟨["ext", "rec.xlsx"], true, 7, 77⟩ (by decide) rfl (by decide) rfl

/-- C2 counterexample: searching for `a[b].xlsx` returns the file named
`ab.xlsx` (a different name: the searched name is used as a glob pattern),
and in a tree that contains a regular file literally named `a[b].xlsx` the
search finds nothing, so exact-name soundness and completeness both fail. -/
theorem C2_counterexample :
    find_matching_file_in_internal demoConfig "a[b].xlsx" "P" "Q" "" PhaseCode.p030 c2fsA
      = some ⟨["int", "P", "Q", "030.調査", "ab.xlsx"], true, 0, 1⟩ ∧
    entryName (⟨["int", "P", "Q", "030.調査", "ab.xlsx"], true, 0, 1⟩ : FSEntry)
      ≠ "a[b].xlsx" ∧
    (∃ e ∈ c2fsB, e.isFile = true ∧ entryName e = "a[b].xlsx" ∧
      isUnderStrict ["int", "P", "Q", "030.調査"] e.path = true) ∧
    find_matching_file_in_internal demoConfig "a[b].xlsx" "P" "Q" "" PhaseCode.p030 c2fsB
      = none := by
  decide

/-- C2 amended: whatever findMatchingFileInInternal returns is a regular
file under the phase path whose name matches the searched name interpreted
as a glob pattern (exact equality only for metacharacter-free names), and
whenever some regular file with a glob-matching name exists under the phase
path of an ancestor-closed tree, the search finds one. -/
theorem C2_find_matching_amended (config : Config) (file_name : String)
    (project quarter item : String) (ph : PhaseCode) (fs : FS)
    (hanc : FS.ancestorsClosed fs) :
    (∀ e, find_matching_file_in_internal config file_name project quarter item ph fs
        = some e →
      e ∈ fs ∧ e.isFile = true ∧
      isUnderStrict (copier_build_phase_path config.base_path_internal project quarter item ph)
        e.path = true ∧
      globMatchStr file_name (entryName e) = true) ∧
    ((∃ e ∈ fs, e.isFile = true ∧
        isUnderStrict (copier_build_phase_path config.base_path_internal project quarter item ph)
          e.path = true ∧
        globMatchStr file_name (entryName e) = true) →
      (find_matching_file_in_internal config file_name project quarter item ph fs).isSome
        = true) := by
  constructor
  · intro e he
    by_cases hpe : pathExists fs
        (copier_build_phase_path config.base_path_internal project quarter item ph) = false
    · simp [find_matching_file_in_internal, hpe] at he
    · simp only [find_matching_file_in_internal, hpe, Bool.false_eq_true, if_false] at he
      have hmem := head_mem_of_head?_eq he
      have h2 : e ∈ rglob fs
          (copier_build_phase_path config.base_path_internal project quarter item ph)
          file_name ∧ e.isFile = true := by
        simpa [List.mem_filter] using hmem
      have h3 := mem_rglob_iff.mp h2.1
      exact ⟨h3.1, h2.2, h3.2.1, h3.2.2⟩
  · rintro ⟨e, hefs, hefile, heu, heg⟩
    have hpe : pathExists fs
        (copier_build_phase_path config.base_path_internal project quarter item ph) = true :=
      dir_exists_of_under hanc hefs heu (copier_build_len_pos _ _ _ _ _)
    have hmem : e ∈ (rglob fs
        (copier_build_phase_path config.base_path_internal project quarter item ph)
        file_name).filter (fun x => x.isFile) := by
      rw [List.mem_filter]
      exact ⟨mem_rglob_iff.mpr ⟨hefs, heu, heg⟩, hefile⟩
    simp only [find_matching_file_in_internal, hpe, Bool.true_eq_false, if_false]
    exact head?_isSome_of_mem hmem

/-- C2 witness: a concrete sound and complete search on a well-formed tree
with one nested match. -/
theorem C2_find_matching_amended_witness :
    (⟨["int", "P", "Q", "030.調査", "成果物", "rec.xlsx"], true, 1, 11⟩ : FSEntry) ∈ wfs1 ∧
    (find_matching_file_in_internal demoConfig "rec.xlsx" "P" "Q" "" PhaseCode.p030
        wfs1).isSome = true := by
  refine ⟨by decide, ?_⟩
  exact (C2_find_matching_amended demoConfig "rec.xlsx" "P" "Q" "" PhaseCode.p030 wfs1
      (by decide)).2
    ⟨⟨["int", "P", "Q", "030.調査", "成果物", "rec.xlsx"], true, 1, 11⟩,
      by decide, by decide, by decide, by decide⟩

/-- C4 counterexample: with the configured prefix `a*` (a legal
comma-separated config value), the scan returns `ab_c.xlsx`, whose name
does not start with the prefix followed by an underscore — the prefix is
spliced into a glob pattern, not compared literally. -/
theorem C4_counterexample :
    scan_documents c4cfg "P" "Q" "" PhaseCode.p030 OperationMode.outgoing 0 c4fs 0
      = [⟨["int", "P", "Q", "030.調査", "ab_c.xlsx"], true, 100, 5⟩] ∧
    getPatterns c4cfg.document_patterns PhaseCode.p030 = ["a*"] ∧
    listIsPrefixChars ("a*" ++ "_").data "ab_c.xlsx".data = false := by
  decide

/-- C4 amended: every file returned by the document scan is a regular file
lying directly in the phase directory whose name matches the glob pattern
`<prefix>_*.xlsx` for one of the phase's configured prefixes (for
metacharacter-free prefixes: starts with the prefix followed by an
underscore and ends in `.xlsx`) and whose modification time is on/after
todayMidnight minus the recency window; with no configured patterns the
scan returns empty for every filesystem. -/
theorem C4_scan_documents_amended (config : Config) (project quarter item : String)
    (ph : PhaseCode) (mode : OperationMode) (days : Int) (fs : FS) (midnight : Int) :
    (∀ e ∈ scan_documents config project quarter item ph mode days fs midnight,
      e ∈ fs ∧ e.isFile = true ∧
      isChildOf (scanner_build_phase_path
          (if mode = OperationMode.outgoing then config.base_path_internal
           else config.base_path_external) project quarter item ph) e.path = true ∧
      (∃ pref ∈ getPatterns config.document_patterns ph,
        globMatchStr (pref ++ "_*.xlsx") (entryName e) = true) ∧
      should_include_file midnight e.mtime days = true) ∧
    (getPatterns config.document_patterns ph = [] →
      ∀ fs2, scan_documents config project quarter item ph mode days fs2 midnight = []) := by
  constructor
  · intro e he
    by_cases hpe : pathExists fs (scanner_build_phase_path
        (if mode = OperationMode.outgoing then config.base_path_internal
         else config.base_path_external) project quarter item ph) = false
    · simp [scan_documents, hpe] at he
    · by_cases hempty : (getPatterns config.document_patterns ph).isEmpty
      · simp [scan_documents, hpe, hempty] at he
      · simp [scan_documents, hpe, hempty, List.mem_flatMap, List.mem_filter,
          Bool.and_eq_true] at he
        obtain ⟨pref, hpref, hegc, hefile, herec⟩ := he
        have h3 := mem_globChildren_iff.mp hegc
        exact ⟨h3.1, hefile, h3.2.1,
          ⟨pref, hpref, by rw [← globName_eq]; exact h3.2.2⟩, herec⟩
  · intro hp fs2
    by_cases hpe : pathExists fs2 (scanner_build_phase_path
        (if mode = OperationMode.outgoing then config.base_path_internal
         else config.base_path_external) project quarter item ph) = false <;>
      simp [scan_documents, hp, hpe]

/-- C4 witness: the spec's example — prefix 調査検討書, recency window 0,
file 調査検討書_案件A.xlsx modified today is scanned and satisfies all the
listed properties. -/
theorem C4_scan_documents_amended_witness :
    (⟨["int", "P", "Q", "030.調査", "調査検討書_案件A.xlsx"], true, 100, 5⟩ : FSEntry)
      ∈ scan_documents c4wcfg "P" "Q" "" PhaseCode.p030 OperationMode.outgoing 0 c4wfs 0 ∧
    ((⟨["int", "P", "Q", "030.調査", "調査検討書_案件A.xlsx"], true, 100, 5⟩ : FSEntry) ∈ c4wfs ∧
      (⟨["int", "P", "Q", "030.調査", "調査検討書_案件A.xlsx"], true, 100, 5⟩ : FSEntry).isFile
        = true ∧
      isChildOf (scanner_build_phase_path
          (if OperationMode.outgoing = OperationMode.outgoing then c4wcfg.base_path_internal
           else c4wcfg.base_path_external) "P" "Q" "" PhaseCode.p030)
        (⟨["int", "P", "Q", "030.調査", "調査検討書_案件A.xlsx"], true, 100, 5⟩ : FSEntry).path
        = true ∧
      (∃ pref ∈ getPatterns c4wcfg.document_patterns PhaseCode.p030,
        globMatchStr (pref ++ "_*.xlsx")
          (entryName ⟨["int", "P", "Q", "030.調査", "調査検討書_案件A.xlsx"], true, 100, 5⟩)
          = true) ∧
      should_include_file 0 100 0 = true) :=
  ⟨by decide,
    (C4_scan_documents_amended c4wcfg "P" "Q" "" PhaseCode.p030 OperationMode.outgoing
        0 c4wfs 0).1
      ⟨["int", "P", "Q", "030.調査", "調査検討書_案件A.xlsx"], true, 100, 5⟩ (by decide)⟩

/-- C5: the review-record scan searches phase-path/成果物/外部レビュー
recursively when outgoing and phase-path/成果物 recursively when incoming,
returns exactly the in-window regular files at any depth whose names match
レビュー記録表(社外)*.xlsx (with or without a separator after the fixed
literal), and returns empty when the search root does not exist. -/
theorem C5_scan_review_records (config : Config) (project quarter item : String)
    (ph : PhaseCode) (days : Int) (fs : FS) (midnight : Int) :
    (∀ e, e ∈ scan_review_records config project quarter item ph
        OperationMode.outgoing days fs midnight ↔
      (pathExists fs (scanner_build_phase_path config.base_path_internal project quarter
          item ph ++ ["成果物", "外部レビュー"]) = true ∧
        e ∈ fs ∧
        isUnderStrict (scanner_build_phase_path config.base_path_internal project quarter
          item ph ++ ["成果物", "外部レビュー"]) e.path = true ∧
        e.isFile = true ∧
        globMatchStr reviewRecordPattern (entryName e) = true ∧
        should_include_file midnight e.mtime days = true)) ∧
    (∀ e, e ∈ scan_review_records config project quarter item ph
        OperationMode.incoming days fs midnight ↔
      (pathExists fs (scanner_build_phase_path config.base_path_external project quarter
          item ph ++ ["成果物"]) = true ∧
        e ∈ fs ∧
        isUnderStrict (scanner_build_phase_path config.base_path_external project quarter
          item ph ++ ["成果物"]) e.path = true ∧
        e.isFile = true ∧
        globMatchStr reviewRecordPattern (entryName e) = true ∧
        should_include_file midnight e.mtime days = true)) ∧
    (pathExists fs (scanner_build_phase_path config.base_path_internal project quarter
        item ph ++ ["成果物", "外部レビュー"]) = false →
      scan_review_records config project quarter item ph OperationMode.outgoing days fs
        midnight = []) ∧
    (pathExists fs (scanner_build_phase_path config.base_path_external project quarter
        item ph ++ ["成果物"]) = false →
      scan_review_records config project quarter item ph OperationMode.incoming days fs
        midnight = []) ∧
    globMatchStr reviewRecordPattern "レビュー記録表(社外)_1回目.xlsx" = true ∧
    globMatchStr reviewRecordPattern "レビュー記録表(社外)調査.xlsx" = true := by
  refine ⟨?_, ?_, ?_, ?_, by decide, by decide⟩
  · intro e
    by_cases hpe : pathExists fs (scanner_build_phase_path config.base_path_internal
        project quarter item ph ++ ["成果物", "外部レビュー"]) = false
    · simp [scan_review_records, hpe]
    · have hpe2 : pathExists fs (scanner_build_phase_path config.base_path_internal
          project quarter item ph ++ ["成果物", "外部レビュー"]) = true := by
        simpa using hpe
      simp [scan_review_records, hpe2, List.mem_filter, Bool.and_eq_true,
        mem_rglob_iff, globName_eq]
      tauto
  · intro e
    by_cases hpe : pathExists fs (scanner_build_phase_path config.base_path_external
        project quarter item ph ++ ["成果物"]) = false
    · simp [scan_review_records, hpe]
    · have hpe2 : pathExists fs (scanner_build_phase_path config.base_path_external
          project quarter item ph ++ ["成果物"]) = true := by
        simpa using hpe
      simp [scan_review_records, hpe2, List.mem_filter, Bool.and_eq_true,
        mem_rglob_iff, globName_eq]
      tauto
  · intro hpe
    simp [scan_review_records, hpe]
  · intro hpe
    simp [scan_review_records, hpe]

/-- C5 witness: a missing search root yields empty, and the date-nested
record is found by the outgoing scan. -/
theorem C5_scan_review_records_witness :
    scan_review_records demoConfig "P" "Q" "" PhaseCode.p030 OperationMode.outgoing 0 [] 0
      = [] ∧
    (⟨["int", "P", "Q", "030.調査", "成果物", "外部レビュー", "20250101",
        "レビュー記録表(社外)調査.xlsx"], true, 50, 1⟩ : FSEntry)
      ∈ scan_review_records demoConfig "P" "Q" "" PhaseCode.p030 OperationMode.outgoing 7
          c5fs 0 :=
  ⟨(C5_scan_review_records demoConfig "P" "Q" "" PhaseCode.p030 0 ([] : FS) 0).2.2.1
      (by decide),
    ((C5_scan_review_records demoConfig "P" "Q" "" PhaseCode.p030 7 c5fs 0).1
      ⟨["int", "P", "Q", "030.調査", "成果物", "外部レビュー", "20250101",
        "レビュー記録表(社外)調査.xlsx"], true, 50, 1⟩).mpr (by decide)⟩

/-- C6: the four copy entry points return a boolean failure indicator (they
are total functions into `Bool × FS`, the embedding of the catch-all
`except Exception` handlers); an injected permission-denied or other I/O
fault on the copy primitive makes all four report failure, and a fault on
directory creation makes the three directory-creating ones report failure. -/
theorem C6_copy_errors_absorbed (o : IOOracle) (config : Config)
    (source_file : List String) (project quarter item : String) (ph : PhaseCode)
    (mode : OperationMode) (fs : FS) (err : PyErr) :
    (o.copyRes = IOOutcome.raiseErr err →
      (copy_document o config source_file project quarter item ph mode fs).fst = false ∧
      (copy_review_record_outgoing o config source_file project quarter item ph fs).fst
        = false ∧
      (copy_review_record_incoming o config source_file project quarter item ph fs).fst
        = false ∧
      (copy_extra_file o config source_file project quarter item ph fs).fst = false) ∧
    (o.mkdirRes = IOOutcome.raiseErr err →
      (copy_document o config source_file project quarter item ph mode fs).fst = false ∧
      (copy_review_record_outgoing o config source_file project quarter item ph fs).fst
        = false ∧
      (copy_extra_file o config source_file project quarter item ph fs).fst = false) := by
  constructor
  · intro h
    refine ⟨?_, ?_, ?_, ?_⟩
    · cases hm : o.mkdirRes <;> simp [copy_document, mkdirAll, hm, copy2, h]
    · cases hm : o.mkdirRes <;> simp [copy_review_record_outgoing, mkdirAll, hm, copy2, h]
    · cases hfind : find_matching_file_in_internal config (lastComponent source_file)
          project quarter item ph fs <;>
        simp [copy_review_record_incoming, hfind, copy2, h]
    · cases hm : o.mkdirRes <;> simp [copy_extra_file, mkdirAll, hm, copy2, h]
  · intro h
    exact ⟨by simp [copy_document, mkdirAll, h],
      by simp [copy_review_record_outgoing, mkdirAll, h],
      by simp [copy_extra_file, mkdirAll, h]⟩

/-- C6 witness: with every primitive raising a permission error, all four
entry points report failure on a concrete scenario. -/
theorem C6_copy_errors_absorbed_witness :
    (copy_document oracleFail demoConfig ["ext", "rec.xlsx"] "P" "Q" "" PhaseCode.p030
        OperationMode.outgoing wfs1).fst = false ∧
    (copy_review_record_outgoing oracleFail demoConfig ["ext", "rec.xlsx"] "P" "Q" ""
        PhaseCode.p030 wfs1).fst = false ∧
    (copy_review_record_incoming oracleFail demoConfig ["ext", "rec.xlsx"] "P" "Q" ""
        PhaseCode.p030 wfs1).fst = false ∧
    (copy_extra_file oracleFail demoConfig ["ext", "rec.xlsx"] "P" "Q" "" PhaseCode.p030
        wfs1).fst = false :=
  (C6_copy_errors_absorbed oracleFail demoConfig ["ext", "rec.xlsx"] "P" "Q" ""
      PhaseCode.p030 OperationMode.outgoing wfs1 PyErr.permissionErr).1 rfl

/-- C7: checkReviewRecord is OK exactly when its message list is empty; the
title cell (AE2) and internal-participant cell (AE8) are always required,
the external-participant cell (AE7) exactly when the file name contains
"(社外)"; blank means absent or empty after trimming; each missing required
cell contributes exactly one message naming it; and the concrete example
pair from the spec behaves as claimed. -/
theorem C7_check_review_record (loadResult : Except LoadErr Worksheet)
    (file_name : String) :
    ((check_review_record loadResult file_name).is_ok = true ↔
      (check_review_record loadResult file_name).errors = []) ∧
    (∀ ws, loadResult = Except.ok ws →
      ((check_review_record loadResult file_name).errors.count
          "AE2 (レビュー名称) が未記入です" = if is_cell_empty ws.ae2 then 1 else 0) ∧
      ((check_review_record loadResult file_name).errors.count
          "AE8 (内部メンバ) が未記入です" = if is_cell_empty ws.ae8 then 1 else 0) ∧
      ((check_review_record loadResult file_name).errors.count
          "AE7 (外部メンバ) が未記入です"
        = if strContains file_name "(社外)" && is_cell_empty ws.ae7 then 1 else 0) ∧
      ((check_review_record loadResult file_name).is_ok = true ↔
        (is_cell_empty ws.ae2 = false ∧ is_cell_empty ws.ae8 = false ∧
          (strContains file_name "(社外)" && is_cell_empty ws.ae7) = false))) ∧
    (check_review_record (Except.ok demoSheet) "レビュー記録表(社外)_1回目.xlsx").is_ok
      = false ∧
    "AE7 (外部メンバ) が未記入です"
      ∈ (check_review_record (Except.ok demoSheet) "レビュー記録表(社外)_1回目.xlsx").errors ∧
    (check_review_record (Except.ok demoSheet) "レビュー記録表_1回目.xlsx").is_ok = true := by
  refine ⟨?_, ?_, by decide, by decide, by decide⟩
  · cases loadResult with
    | ok ws =>
      by_cases h2 : is_cell_empty ws.ae2 <;>
        by_cases h8 : is_cell_empty ws.ae8 <;>
          by_cases h7 : strContains file_name "(社外)" && is_cell_empty ws.ae7 <;>
            simp [check_review_record, h2, h8, h7]
    | error e => cases e <;> simp [check_review_record]
  · rintro ws rfl
    by_cases h2 : is_cell_empty ws.ae2 <;>
      by_cases h8 : is_cell_empty ws.ae8 <;>
        by_cases h7 : strContains file_name "(社外)" && is_cell_empty ws.ae7 <;>
          simp [check_review_record, h2, h8, h7]

/-- C7 witness: load succeeds on the demo sheet, whose blank AE7 is flagged
for the 社外-marked name. -/
theorem C7_check_review_record_witness :
    (check_review_record (Except.ok demoSheet) "レビュー記録表(社外)_1回目.xlsx").errors.count
        "AE7 (外部メンバ) が未記入です"
      = if strContains "レビュー記録表(社外)_1回目.xlsx" "(社外)"
            && is_cell_empty demoSheet.ae7 then 1 else 0 :=
  ((C7_check_review_record (Except.ok demoSheet) "レビュー記録表(社外)_1回目.xlsx").2.1
    demoSheet rfl).2.2.1

/-- C8: the extra-file scan returns empty in the incoming direction, returns
empty for every filesystem when the configured list is empty, and otherwise
returns only in-window regular files at any depth under
phase-path/成果物/外部レビュー whose names match a configured entry. -/
theorem C8_scan_extra_files (config : Config) (project quarter item : String)
    (ph : PhaseCode) (days : Int) (fs : FS) (midnight : Int) :
    (config.extra_files = [] → ∀ mode fs2,
      scan_extra_files config project quarter item ph mode days fs2 midnight = []) ∧
    scan_extra_files config project quarter item ph OperationMode.incoming days fs midnight
      = [] ∧
    (∀ e ∈ scan_extra_files config project quarter item ph OperationMode.outgoing days fs
        midnight,
      e ∈ fs ∧ e.isFile = true ∧
      isUnderStrict (scanner_build_phase_path config.base_path_internal project quarter
          item ph ++ ["成果物", "外部レビュー"]) e.path = true ∧
      (∃ nm ∈ config.extra_files, globMatchStr nm (entryName e) = true) ∧
      should_include_file midnight e.mtime days = true) := by
  refine ⟨?_, ?_, ?_⟩
  · intro hempty mode fs2
    simp [scan_extra_files, hempty]
  · by_cases hempty : config.extra_files.isEmpty <;> simp [scan_extra_files, hempty]
  · intro e he
    by_cases hempty : config.extra_files.isEmpty
    · simp [scan_extra_files, hempty] at he
    · by_cases hpe : pathExists fs (scanner_build_phase_path config.base_path_internal
          project quarter item ph ++ ["成果物", "外部レビュー"]) = false
      · simp [scan_extra_files, hempty, hpe] at he
      · simp [scan_extra_files, hempty, hpe, List.mem_flatMap, List.mem_filter,
          Bool.and_eq_true] at he
        obtain ⟨nm, hnm, her, hefile, herec⟩ := he
        have h3 := mem_rglob_iff.mp her
        exact ⟨h3.1, hefile, h3.2.1, ⟨nm, hnm, by rw [← globName_eq]; exact h3.2.2⟩, herec⟩

/-- C8 witness: empty configured list gives an empty scan on a populated
tree, and the configured `memo.txt` found by the outgoing scan matches a
configured entry. -/
theorem C8_scan_extra_files_witness :
    scan_extra_files demoConfig "P" "Q" "" PhaseCode.p030 OperationMode.outgoing 0 c8fs 0
      = [] ∧
    (∃ nm ∈ c8cfg.extra_files, globMatchStr nm
        (entryName ⟨["int", "P", "Q", "030.調査", "成果物", "外部レビュー", "memo.txt"],
          true, 3, 33⟩) = true) :=
  ⟨(C8_scan_extra_files demoConfig "P" "Q" "" PhaseCode.p030 0 c8fs 0).1 rfl
      OperationMode.outgoing c8fs,
    ((C8_scan_extra_files c8cfg "P" "Q" "" PhaseCode.p030 7 c8fs 0).2.2
      ⟨["int", "P", "Q", "030.調査", "成果物", "外部レビュー", "memo.txt"], true, 3, 33⟩
      (by decide)).2.2.2.1⟩

/-- A missing section or option makes `getOpt` raise. -/
theorem getOpt_error_of_hasOption_false {ini : IniFile} {sec opt : String}
    (h : ini.hasOption sec opt = false) : ∃ e, ini.getOpt sec opt = Except.error e := by
  unfold IniFile.hasOption at h
  cases hs : ini.sections.lookup sec with
  | none => exact ⟨ConfigError.noSection sec, by simp [IniFile.getOpt, hs]⟩
  | some kvs =>
    rw [hs] at h
    cases ho : kvs.lookup opt with
    | none => exact ⟨ConfigError.noOption sec opt, by simp [IniFile.getOpt, hs, ho]⟩
    | some v => exact absurd h (by simp [ho])

/-- A successful pattern loop yields an entry for every phase it visited. -/
theorem loadPatterns_ok_mem {ini : IniFile} {phs : List PhaseCode}
    {l : List (PhaseCode × List String)} (h : loadPatterns ini phs = Except.ok l) :
    ∀ ph ∈ phs, ∃ pats, (ph, pats) ∈ l := by
  induction phs generalizing l with
  | nil => intro ph hph; cases hph
  | cons p rest ih =>
    intro ph hph
    unfold loadPatterns at h
    cases hg : ini.getOpt "Documents" p.value with
    | error e => rw [hg] at h; cases h
    | ok s =>
      rw [hg] at h
      cases hr : loadPatterns ini rest with
      | error e => rw [hr] at h; cases h
      | ok tl =>
        rw [hr] at h
        cases h
        rcases List.mem_cons.mp hph with rfl | hmem
        · exact ⟨parseCsvList s, List.mem_cons_self _ _⟩
        · obtain ⟨pats, hp⟩ := ih hr ph hmem
          exact ⟨pats, List.mem_cons_of_mem _ hp⟩

/-- A missing `Documents` key for any visited phase makes the loop raise. -/
theorem loadPatterns_error_of_missing {ini : IniFile} {phs : List PhaseCode}
    {ph : PhaseCode} (hmem : ph ∈ phs)
    (h : ini.hasOption "Documents" ph.value = false) :
    ∃ e, loadPatterns ini phs = Except.error e := by
  induction phs with
  | nil => cases hmem
  | cons p rest ih =>
    rcases List.mem_cons.mp hmem with rfl | hmem2
    · obtain ⟨e, he⟩ := getOpt_error_of_hasOption_false h
      exact ⟨e, by unfold loadPatterns; rw [he]⟩
    · cases hg : ini.getOpt "Documents" p.value with
      | error e => exact ⟨e, by unfold loadPatterns; rw [hg]⟩
      | ok s =>
        obtain ⟨e, he⟩ := ih hmem2
        exact ⟨e, by unfold loadPatterns; rw [hg, he]⟩

/-- Every phase code is visited by the loader's loop. -/
theorem allPhases_mem (ph : PhaseCode) : ph ∈ allPhases := by
  cases ph <;> simp [allPhases]

/-- C9: every configuration a successful load returns carries a
document-pattern entry (possibly empty) for each of the seven phases, and a
missing config file, a missing `Documents` key for any phase, a missing
`ExtraFiles.include_files` option, or a missing `Paths` option raises an
aborting error instead of returning a partial configuration. -/
theorem C9_load_config :
    (∀ f c, load_config f = Except.ok c →
      ∀ ph : PhaseCode, ∃ pats, (ph, pats) ∈ c.document_patterns) ∧
    load_config none = Except.error ConfigError.fileNotFound ∧
    (∀ ini : IniFile, ∀ ph : PhaseCode, ini.hasOption "Documents" ph.value = false →
      ∃ err, load_config (some ini) = Except.error err) ∧
    (∀ ini : IniFile, ini.hasOption "ExtraFiles" "include_files" = false →
      ∃ err, load_config (some ini) = Except.error err) ∧
    (∀ ini : IniFile, ini.hasOption "Paths" "base_path_internal" = false ∨
        ini.hasOption "Paths" "base_path_external" = false →
      ∃ err, load_config (some ini) = Except.error err) := by
  refine ⟨?_, rfl, ?_, ?_, ?_⟩
  · intro f c h ph
    cases f with
    | none => cases h
    | some ini =>
      simp only [load_config] at h
      cases h1 : ini.getOpt "Paths" "base_path_internal" with
      | error e => rw [h1] at h; cases h
      | ok bpi =>
        rw [h1] at h
        cases h2 : ini.getOpt "Paths" "base_path_external" with
        | error e => rw [h2] at h; cases h
        | ok bpe =>
          rw [h2] at h
          cases h3 : loadPatterns ini allPhases with
          | error e => rw [h3] at h; cases h
          | ok pats =>
            rw [h3] at h
            cases h4 : ini.getOpt "ExtraFiles" "include_files" with
            | error e => rw [h4] at h; cases h
            | ok efs =>
              rw [h4] at h
              cases h
              exact loadPatterns_ok_mem h3 ph (allPhases_mem ph)
  · intro ini ph hop
    obtain ⟨e, he⟩ := loadPatterns_error_of_missing (allPhases_mem ph) hop
    cases h1 : ini.getOpt "Paths" "base_path_internal" with
    | error e1 => exact ⟨e1, by simp [load_config, h1]⟩
    | ok bpi =>
      cases h2 : ini.getOpt "Paths" "base_path_external" with
      | error e2 => exact ⟨e2, by simp [load_config, h1, h2]⟩
      | ok bpe => exact ⟨e, by simp [load_config, h1, h2, he]⟩
  · intro ini hop
    obtain ⟨e, he⟩ := getOpt_error_of_hasOption_false hop
    cases h1 : ini.getOpt "Paths" "base_path_internal" with
    | error e1 => exact ⟨e1, by simp [load_config, h1]⟩
    | ok bpi =>
      cases h2 : ini.getOpt "Paths" "base_path_external" with
      | error e2 => exact ⟨e2, by simp [load_config, h1, h2]⟩
      | ok bpe =>
        cases h3 : loadPatterns ini allPhases with
        | error e3 => exact ⟨e3, by simp [load_config, h1, h2, h3]⟩
        | ok pats => exact ⟨e, by simp [load_config, h1, h2, h3, he]⟩
  · intro ini hor
    cases h1 : ini.getOpt "Paths" "base_path_internal" with
    | error e1 => exact ⟨e1, by simp [load_config, h1]⟩
    | ok bpi =>
      cases h2 : ini.getOpt "Paths" "base_path_external" with
      | error e2 => exact ⟨e2, by simp [load_config, h1, h2]⟩
      | ok bpe =>
        exfalso
        rcases hor with hi | hx
        · obtain ⟨e, he⟩ := getOpt_error_of_hasOption_false hi
          rw [he] at h1; cases h1
        · obtain ⟨e, he⟩ := getOpt_error_of_hasOption_false hx
          rw [he] at h2; cases h2

/-- C9 witness: a complete INI loads to the expected configuration, which
has an entry for phase 040; an INI missing a `Documents` key aborts. -/
theorem C9_load_config_witness :
    load_config (some iniGood) = Except.ok cfgGood ∧
    (∃ pats, (PhaseCode.p040, pats) ∈ cfgGood.document_patterns) ∧
    (∃ err, load_config (some iniNoDoc) = Except.error err) := by
  refine ⟨rfl, ?_, ?_⟩
  · exact C9_load_config.1 (some iniGood) cfgGood rfl PhaseCode.p040
  · exact C9_load_config.2.2.1 iniNoDoc PhaseCode.p040 (by decide)

/-- C10: when the incoming copy finds a match while several regular files
whose names the search matches exist at different depths under the internal
phase path, exactly one of them — the first in the traversal order of the
search — is overwritten in place, and every other entry of the internal
tree is left unchanged; which duplicate receives the copy is determined by
traversal order alone. -/
theorem C10_incoming_overwrites_first (o : IOOracle) (config : Config)
    (source_file : List String) (project quarter item : String) (ph : PhaseCode)
    (fs : FS) (hnd : FS.nodupPaths fs) (f se : FSEntry)
    (hfind : find_matching_file_in_internal config (lastComponent source_file)
        project quarter item ph fs = some f)
    (hsev : 2 ≤ (incomingMatches config source_file project quarter item ph fs).length)
    (hdep : ∃ a ∈ incomingMatches config source_file project quarter item ph fs,
      ∃ b ∈ incomingMatches config source_file project quarter item ph fs,
        a.path.length ≠ b.path.length)
    (ho : o.copyRes = IOOutcome.ok) (hse : findEntry fs source_file = some se)
    (hsef : se.isFile = true) :
    (incomingMatches config source_file project quarter item ph fs).head? = some f ∧
    f ∈ incomingMatches config source_file project quarter item ph fs ∧
    copy_review_record_incoming o config source_file project quarter item ph fs
      = (true, overwriteAt fs f.path se.mtime se.content) ∧
    (∀ e ∈ fs, e.path ≠ f.path →
      e ∈ (copy_review_record_incoming o config source_file project quarter item ph
        fs).snd) := by
  by_cases hpe : pathExists fs
      (copier_build_phase_path config.base_path_internal project quarter item ph) = false
  · exact absurd hfind (by simp [find_matching_file_in_internal, hpe])
  · have hpe2 : pathExists fs
        (copier_build_phase_path config.base_path_internal project quarter item ph)
        = true := by simpa using hpe
    have hf : (incomingMatches config source_file project quarter item ph fs).head?
        = some f := by
      simpa [find_matching_file_in_internal, hpe2, incomingMatches] using hfind
    have hres := incoming_overwrite_of_head hnd hpe2 hf ho hse hsef
    refine ⟨hf, head_mem_of_head?_eq hf, hres, ?_⟩
    intro e he hne
    rw [hres]
    simp only [overwriteAt, List.mem_map]
    refine ⟨e, he, ?_⟩
    rw [if_neg (by simp [hne])]

/-- C10 witness: two same-named files at different depths; the shallower,
earlier one in traversal order receives the copy, the deeper one survives
unchanged. -/
theorem C10_incoming_overwrites_first_witness :
    (incomingMatches demoConfig ["ext", "rec.xlsx"] "P" "Q" "" PhaseCode.p030 wfs2).head?
      = some ⟨["int", "P", "Q", "030.調査", "成果物", "rec.xlsx"], true, 1, 11⟩ ∧
    copy_review_record_incoming oracleOk demoConfig ["ext", "rec.xlsx"] "P" "Q" ""
        PhaseCode.p030 wfs2
      = (true, overwriteAt wfs2 ["int", "P", "Q", "030.調査", "成果物", "rec.xlsx"] 9 99) ∧
    (⟨["int", "P", "Q", "030.調査", "成果物", "sub", "rec.xlsx"], true, 2, 22⟩ : FSEntry)
      ∈ (copy_review_record_incoming oracleOk demoConfig ["ext", "rec.xlsx"] "P" "Q" ""
          PhaseCode.p030 wfs2).snd :=
  ⟨(C10_incoming_overwrites_first oracleOk demoConfig ["ext", "rec.xlsx"] "P" "Q" ""
      PhaseCode.p030 wfs2 (by decide)
      ⟨["int", "P", "Q", "030.調査", "成果物", "rec.xlsx"], true, 1, 11⟩
      ⟨["ext", "rec.xlsx"], true, 9, 99⟩ (by decide) (by decide)
      ⟨⟨["int", "P", "Q", "030.調査", "成果物", "rec.xlsx"], true, 1, 11⟩, by decide,
        ⟨["int", "P", "Q", "030.調査", "成果物", "sub", "rec.xlsx"], true, 2, 22⟩,
        by decide, by decide⟩
      rfl (by decide) rfl).1,
    (C10_incoming_overwrites_first oracleOk demoConfig ["ext", "rec.xlsx"] "P" "Q" ""
      PhaseCode.p030 wfs2 (by decide)
      ⟨["int", "P", "Q", "030.調査", "成果物", "rec.xlsx"], true, 1, 11⟩
      ⟨["ext", "rec.xlsx"], true, 9, 99⟩ (by decide) (by decide)
      ⟨⟨["int", "P", "Q", "030.調査", "成果物", "rec.xlsx"], true, 1, 11⟩, by decide,
        ⟨["int", "P", "Q", "030.調査", "成果物", "sub", "rec.xlsx"], true, 2, 22⟩,
        by decide, by decide⟩
      rfl (by decide) rfl).2.2.1,
    (C10_incoming_overwrites_first oracleOk demoConfig ["ext", "rec.xlsx"] "P" "Q" ""
      PhaseCode.p030 wfs2 (by decide)
      ⟨["int", "P", "Q", "030.調査", "成果物", "rec.xlsx"], true, 1, 11⟩
      ⟨["ext", "rec.xlsx"], true, 9, 99⟩ (by decide) (by decide)
      ⟨⟨["int", "P", "Q", "030.調査", "成果物", "rec.xlsx"], true, 1, 11⟩, by decide,
        ⟨["int", "P", "Q", "030.調査", "成果物", "sub", "rec.xlsx"], true, 2, 22⟩,
        by decide, by decide⟩
      rfl (by decide) rfl).2.2.2
      ⟨["int", "P", "Q", "030.調査", "成果物", "sub", "rec.xlsx"], true, 2, 22⟩
      (by decide) (by decide)⟩

end AutoCopy
